import Mathlib

/-!
Shallow embedding of the draWG host-authoritative game-state engine.
Data model from src/app/lib/types.ts; the host reducer and the phase
transition startDrawingPhase from the useGameState hook; the send and
sendToPlayer delivery logic from src/app/lib/networking.ts.  JavaScript
records keyed by player id are association lists, sparse arrays are lists
of Option, and Math.random is an oracle g : Nat -> Nat consumed by call
index (each draw reduced modulo the exclusive bound, so every sequence of
in-range choices is realised by some oracle).
-/

/-- Game phases, from the GamePhase union in types.ts. -/
inductive GamePhase where
  | lobby
  | sentence_submission
  | quiz
  | drawing
  | slideshow
  | leaderboard
deriving DecidableEq, Repr

/-- A player record, from the Player interface in types.ts.  Optional
fields are Option, numeric fields are Nat. -/
structure Player where
  id : String
  name : String
  isHost : Bool
  sentence : Option String := none
  quizScore : Nat := 0
  drawingDataUrl : Option String := none
  assignedSentence : Option String := none
  thumbsUp : Nat := 0
  thumbsDown : Nat := 0
deriving DecidableEq, Repr

/-- A quiz question, from the QuizQuestion interface in types.ts. -/
structure QuizQuestion where
  id : Nat
  question : String
  options : List String
  correctIndex : Nat
deriving DecidableEq, Repr

/-- One entry of the reactions record: the voter-id lists for one target. -/
structure ReactionEntry where
  thumbsUp : List String := []
  thumbsDown : List String := []
deriving DecidableEq, Repr

/-- The shared game state, from the GameState interface in types.ts. -/
structure GameState where
  phase : GamePhase
  roomCode : String
  players : List Player
  currentQuestionIndex : Nat
  quizAnswers : List (String × List (Option Nat))
  quizTimeRemaining : Nat
  drawingTimeRemaining : Nat
  currentSlideIndex : Nat
  slideTimeRemaining : Nat
  reactions : List (String × ReactionEntry)
deriving DecidableEq, Repr

/-- First-match lookup in an association list, the JavaScript record read. -/
def alookup {α : Type} : List (String × α) → String → Option α
  | [], _ => none
  | e :: es, k => if e.1 = k then some e.2 else alookup es k

/-- JavaScript record update by spread: replace the value at an existing
key in place, or append a fresh binding at the end. -/
def aset {α : Type} (m : List (String × α)) (k : String) (v : α) : List (String × α) :=
  if (alookup m k).isSome then m.map (fun e => if e.1 = k then (k, v) else e)
  else m ++ [(k, v)]

/-- The hardcoded quiz questions from types.ts. -/
def QUIZ_QUESTIONS : List QuizQuestion :=
  [ { id := 1, question := "What is the capital of France?",
      options := ["London", "Berlin", "Paris", "Madrid"], correctIndex := 2 },
    { id := 2, question := "Which planet is known as the Red Planet?",
      options := ["Venus", "Mars", "Jupiter", "Saturn"], correctIndex := 1 },
    { id := 3, question := "What is 7 x 8?",
      options := ["54", "56", "58", "64"], correctIndex := 1 },
    { id := 4, question := "Who painted the Mona Lisa?",
      options := ["Van Gogh", "Picasso", "Da Vinci", "Michelangelo"], correctIndex := 2 },
    { id := 5, question := "What is the largest ocean on Earth?",
      options := ["Atlantic", "Indian", "Arctic", "Pacific"], correctIndex := 3 },
    { id := 6, question := "How many continents are there?",
      options := ["5", "6", "7", "8"], correctIndex := 2 },
    { id := 7, question := "What gas do plants absorb from the air?",
      options := ["Oxygen", "Nitrogen", "Carbon Dioxide", "Hydrogen"], correctIndex := 2 },
    { id := 8, question := "Which animal is known as the King of the Jungle?",
      options := ["Tiger", "Elephant", "Lion", "Gorilla"], correctIndex := 2 } ]

def QUIZ_DURATION : Nat := 90

def DRAWING_DURATION : Nat := 120

/-- createInitialGameState from types.ts. -/
def createInitialGameState (roomCode : String) : GameState :=
  { phase := GamePhase.lobby
    roomCode := roomCode
    players := []
    currentQuestionIndex := 0
    quizAnswers := []
    quizTimeRemaining := QUIZ_DURATION
    drawingTimeRemaining := DRAWING_DURATION
    currentSlideIndex := 0
    slideTimeRemaining := 5
    reactions := [] }

/-- Vote direction of a submit_reaction payload. -/
inductive ReactionType where
  | thumbsUp
  | thumbsDown
deriving DecidableEq, Repr

/-- Inbound intent messages dispatched by the host reducer switch. -/
inductive GameMsg where
  | player_joined (senderId playerName : String)
  | submit_sentence (senderId sentence : String)
  | submit_quiz_answer (senderId : String) (questionIndex answerIndex : Nat)
  | submit_drawing (senderId drawingDataUrl : String)
  | submit_reaction (senderId targetPlayerId : String) (reactionType : ReactionType)
  | request_sync (senderId : String)
deriving DecidableEq, Repr

/-- Outbound wire message: the host only ever emits game_state_update
envelopes, carrying the full snapshot and the host peer id as sender. -/
inductive WireMsg where
  | gameStateUpdate (payload : GameState) (senderId : String)
deriving DecidableEq, Repr

/-- Host-side view of GameNetwork: own peer id plus the connection map as
a list of pairs of peer id and open flag (keys unique, as in a Map). -/
structure Network where
  playerId : String
  connections : List (String × Bool)
deriving DecidableEq, Repr

/-- GameNetwork.send on the host: deliver the snapshot envelope to every
currently-open connection, skipping closed ones. -/
def broadcastAll (net : Network) (st : GameState) : List (String × WireMsg) :=
  (net.connections.filter (fun c => c.2)).map
    (fun c => (c.1, WireMsg.gameStateUpdate st net.playerId))

/-- GameNetwork.sendToPlayer: deliver to the named peer only, and only if
its connection exists and is open. -/
def sendToPlayerNet (net : Network) (pid : String) (st : GameState) : List (String × WireMsg) :=
  match alookup net.connections pid with
  | some true => [(pid, WireMsg.gameStateUpdate st net.playerId)]
  | _ => []

/-- JavaScript sparse-array write arr[q] = a: set in place when q is in
range, otherwise extend with holes up to q and place the value there. -/
def setAnswer (l : List (Option Nat)) (q a : Nat) : List (Option Nat) :=
  if q < l.length then l.set q (some a)
  else l ++ List.replicate (q - l.length) none ++ [some a]

/-- One visited entry of the score loop: a recorded answer at idx counts
iff it equals the correctIndex of QUIZ_QUESTIONS at idx (holes skipped,
out-of-range indices never match). -/
def answerMatches (idx : Nat) (oa : Option Nat) : Bool :=
  match oa, QUIZ_QUESTIONS.get? idx with
  | some a, some qq => a == qq.correctIndex
  | _, _ => false

/-- The score recomputation loop of the submit_quiz_answer case: count of
matching recorded answers across the whole answer array. -/
def computeScore (l : List (Option Nat)) : Nat :=
  (l.enum.filter (fun e => answerMatches e.1 e.2)).length

/-- The host reducer: the switch in useGameState.handleMessage, paired
with the deliveries it performs (one broadcast of the new snapshot after
every mutating case, a direct reply for request_sync). -/
def handleMessage (net : Network) (st : GameState) (m : GameMsg) :
    GameState × List (String × WireMsg) :=
  match m with
  | GameMsg.player_joined senderId playerName =>
    let newPlayer : Player :=
      { id := senderId, name := playerName, isHost := false, quizScore := 0,
        thumbsUp := 0, thumbsDown := 0 }
    let st' := { st with players := st.players ++ [newPlayer] }
    (st', broadcastAll net st')
  | GameMsg.submit_sentence senderId sentence =>
    let players' := st.players.map
      (fun p => if p.id = senderId then { p with sentence := some sentence } else p)
    let st' := { st with players := players' }
    (st', broadcastAll net st')
  | GameMsg.submit_quiz_answer senderId questionIndex answerIndex =>
    let playerAnswers := (alookup st.quizAnswers senderId).getD []
    let updated := setAnswer playerAnswers questionIndex answerIndex
    let score := computeScore updated
    let players' := st.players.map
      (fun p => if p.id = senderId then { p with quizScore := score } else p)
    let st' := { st with quizAnswers := aset st.quizAnswers senderId updated, players := players' }
    (st', broadcastAll net st')
  | GameMsg.submit_drawing senderId drawingDataUrl =>
    let players' := st.players.map
      (fun p => if p.id = senderId then { p with drawingDataUrl := some drawingDataUrl } else p)
    let st' := { st with players := players' }
    (st', broadcastAll net st')
  | GameMsg.submit_reaction senderId targetPlayerId reactionType =>
    let r := (alookup st.reactions targetPlayerId).getD { thumbsUp := [], thumbsDown := [] }
    let r1 : ReactionEntry :=
      { thumbsUp := r.thumbsUp.filter (fun i => i != senderId),
        thumbsDown := r.thumbsDown.filter (fun i => i != senderId) }
    let r2 : ReactionEntry :=
      match reactionType with
      | ReactionType.thumbsUp => { r1 with thumbsUp := r1.thumbsUp ++ [senderId] }
      | ReactionType.thumbsDown => { r1 with thumbsDown := r1.thumbsDown ++ [senderId] }
    let reactions' := aset st.reactions targetPlayerId r2
    let players' := st.players.map (fun p =>
      if p.id = targetPlayerId then
        let rr := (alookup reactions' p.id).getD { thumbsUp := [], thumbsDown := [] }
        { p with thumbsUp := rr.thumbsUp.length, thumbsDown := rr.thumbsDown.length }
      else p)
    let st' := { st with reactions := reactions', players := players' }
    (st', broadcastAll net st')
  | GameMsg.request_sync senderId =>
    (st, sendToPlayerNet net senderId st)

/-- State component of one reducer invocation. -/
def stepMsg (net : Network) (st : GameState) (m : GameMsg) : GameState :=
  (handleMessage net st m).1

/-- Processing a whole message sequence through the host reducer. -/
def runMsgs (net : Network) (st : GameState) (ms : List GameMsg) : GameState :=
  ms.foldl (stepMsg net) st

/-- Message kinds whose reducer case mutates the state and falls through
to the broadcast at the end of the switch. -/
def GameMsg.isMutating : GameMsg → Bool
  | GameMsg.request_sync _ => false
  | _ => true

/-- The onDisconnection handler installed by createRoom: drop the departed
player from the players list and broadcast the updated snapshot. -/
def handleDisconnection (net : Network) (st : GameState) (pid : String) :
    GameState × List (String × WireMsg) :=
  let st' := { st with players := st.players.filter (fun p => p.id != pid) }
  (st', broadcastAll net st')

/-- One element of the sentence pool handed to the derangement assigner. -/
structure SentenceItem where
  sentence : String
  authorId : String
deriving DecidableEq, Repr

/-- The destructuring swap of two array slots used by the shuffle; out of
range indices leave the list unchanged (never hit by the shuffle). -/
def lswap {α : Type} (l : List α) (i j : Nat) : List α :=
  match l.get? i, l.get? j with
  | some a, some b => (l.set i b).set j a
  | _, _ => l

/-- The Fisher-Yates downward loop: for index i+1 down to 1 swap slot i+1
with a random slot j in range, drawing j from the oracle at the running
call counter c. -/
def fyFrom (g : Nat → Nat) : Nat → List SentenceItem → Nat → List SentenceItem × Nat
  | 0, l, c => (l, c)
  | i + 1, l, c => fyFrom g i (lswap l (i + 1) (g c % (i + 2))) (c + 1)

/-- One full Fisher-Yates shuffle pass, returning the advanced oracle
counter. -/
def fisherYates (g : Nat → Nat) (l : List SentenceItem) (c : Nat) : List SentenceItem × Nat :=
  fyFrom g (l.length - 1) l c

/-- The acceptance check of the shuffle loop: every slot of the candidate
differs in authorId from the original slot at the same index. -/
def checkDerangement : List SentenceItem → List SentenceItem → Bool
  | [], _ => true
  | _ :: _, [] => true
  | r :: rs, o :: os => (r.authorId != o.authorId) && checkDerangement rs os

/-- The while loop of createDerangement: up to fuel shuffle attempts on
the running candidate, reporting whether one was accepted. -/
def derangeAttempts (g : Nat → Nat) (items : List SentenceItem) :
    Nat → List SentenceItem → Nat → List SentenceItem × Bool
  | 0, res, _ => (res, false)
  | fuel + 1, res, c =>
    let s := fisherYates g res c
    if checkDerangement s.1 items then (s.1, true)
    else derangeAttempts g items fuel s.1 s.2

/-- The fallback rotation: shift the head off and push it at the end. -/
def rotate1 : List SentenceItem → List SentenceItem
  | [] => []
  | x :: xs => xs ++ [x]

/-- startDrawingPhase.createDerangement: lists shorter than 2 are returned
unchanged, otherwise up to 100 shuffle attempts, falling back to the
rotation when none is accepted. -/
def createDerangement (g : Nat → Nat) (items : List SentenceItem) : List SentenceItem :=
  if items.length < 2 then items
  else
    let r := derangeAttempts g items 100 items 0
    if r.2 then r.1 else rotate1 items

/-- JavaScript truthiness of the optional sentence field: present and not
the empty string. -/
def sentenceTruthy (p : Player) : Bool :=
  match p.sentence with
  | some s => s != ""
  | none => false

/-- The assignment forEach of startDrawingPhase: participant at position
idx receives the deranged slot at idx modulo the deranged length.  When
the deranged list is empty the slot access yields undefined and reading
its sentence field throws, modelled as none. -/
def assignLoop (deranged : List SentenceItem) :
    List Player → Nat → List (String × String) → Option (List (String × String))
  | [], _, acc => some acc
  | p :: ps, idx, acc =>
    match deranged.get? (idx % deranged.length) with
    | none => none
    | some it => assignLoop deranged ps (idx + 1) (aset acc p.id it.sentence)

/-- startDrawingPhase on the host: build the authored sentence pool from
non-host participants with a truthy sentence, derange it, assign slots
cyclically over all participants, then enter the drawing phase.  A none
result is the TypeError thrown on an empty deranged list. -/
def startDrawingPhase (g : Nat → Nat) (st : GameState) : Option GameState :=
  let participants := st.players.filter (fun p => !p.isHost)
  let playersWithSentences := participants.filter sentenceTruthy
  let sentences := playersWithSentences.map
    (fun p => { sentence := p.sentence.getD "", authorId := p.id : SentenceItem })
  let derangedSentences := createDerangement g sentences
  match assignLoop derangedSentences participants 0 [] with
  | none => none
  | some assignments =>
    let players' := st.players.map (fun p =>
      { p with assignedSentence := if p.isHost then none else alookup assignments p.id })
    some { st with
      phase := GamePhase.drawing,
      drawingTimeRemaining := DRAWING_DURATION,
      players := players' }

/-! Association list lemmas. -/

theorem alookup_map_upd {α : Type} (m : List (String × α)) (k : String) (v : α)
    (h : (alookup m k).isSome) :
    alookup (m.map (fun e => if e.1 = k then (k, v) else e)) k = some v := by
  induction m with
  | nil => simp [alookup] at h
  | cons e es ih =>
    by_cases hk : e.1 = k
    · simp [alookup, hk]
    · simp only [alookup, hk, if_false] at h
      simpa [alookup, hk] using ih h

theorem alookup_map_ne {α : Type} (m : List (String × α)) (k k' : String) (v : α)
    (h : k' ≠ k) :
    alookup (m.map (fun e => if e.1 = k then (k, v) else e)) k' = alookup m k' := by
  induction m with
  | nil => simp
  | cons e es ih =>
    by_cases hk : e.1 = k
    · have hne : ¬(k = k') := fun hh => h hh.symm
      simp [alookup, hk, hne, ih]
    · simp [alookup, hk, ih]

theorem alookup_append_single {α : Type} (m : List (String × α)) (k : String) (v : α)
    (h : alookup m k = none) :
    alookup (m ++ [(k, v)]) k = some v := by
  induction m with
  | nil => simp [alookup]
  | cons e es ih =>
    by_cases hk : e.1 = k
    · simp [alookup, hk] at h
    · simp only [alookup, hk, if_false] at h
      simpa [alookup, hk] using ih h

theorem alookup_append_single_ne {α : Type} (m : List (String × α)) (k k' : String) (v : α)
    (h : k' ≠ k) :
    alookup (m ++ [(k, v)]) k' = alookup m k' := by
  induction m with
  | nil =>
    have h2 : ¬(k = k') := fun hh => h hh.symm
    simp [alookup, h2]
  | cons e es ih =>
    by_cases hk : e.1 = k'
    · simp [alookup, hk]
    · simp [alookup, hk, ih]

theorem map_eq_self_of_alookup_none {α : Type} (m : List (String × α)) (k : String) (v : α)
    (h : alookup m k = none) :
    m.map (fun e => if e.1 = k then (k, v) else e) = m := by
  induction m with
  | nil => simp
  | cons e es ih =>
    by_cases hk : e.1 = k
    · simp [alookup, hk] at h
    · simp only [alookup, hk, if_false] at h
      simp [hk, ih h]

theorem alookup_aset_self {α : Type} (m : List (String × α)) (k : String) (v : α) :
    alookup (aset m k v) k = some v := by
  unfold aset
  by_cases h : (alookup m k).isSome
  · simp only [h, if_true]
    exact alookup_map_upd m k v h
  · simp only [h, if_false]
    exact alookup_append_single m k v (Option.not_isSome_iff_eq_none.mp h)

theorem alookup_aset_ne {α : Type} (m : List (String × α)) (k k' : String) (v : α)
    (h : k' ≠ k) :
    alookup (aset m k v) k' = alookup m k' := by
  unfold aset
  by_cases hs : (alookup m k).isSome
  · simp only [hs, if_true]
    exact alookup_map_ne m k k' v h
  · simp only [hs, if_false]
    exact alookup_append_single_ne m k k' v h

theorem aset_aset_self {α : Type} (m : List (String × α)) (k : String) (v w : α) :
    aset (aset m k v) k w = aset m k w := by
  have hsome : (alookup (aset m k v) k).isSome := by
    rw [alookup_aset_self]; rfl
  have hgen : ∀ m' : List (String × α), (alookup m' k).isSome →
      aset m' k w = m'.map (fun e => if e.1 = k then (k, w) else e) := by
    intro m' hm'
    unfold aset
    simp [hm']
  have h3 : aset (aset m k v) k w
      = (aset m k v).map (fun e => if e.1 = k then (k, w) else e) :=
    hgen (aset m k v) hsome
  by_cases h : (alookup m k).isSome
  · have h1 : aset m k v = m.map (fun e => if e.1 = k then (k, v) else e) := by
      unfold aset; simp [h]
    have h2 : aset m k w = m.map (fun e => if e.1 = k then (k, w) else e) := by
      unfold aset; simp [h]
    rw [h3, h1, h2, List.map_map]
    apply List.map_congr_left
    intro e _
    by_cases hk : e.1 = k <;> simp [hk, Function.comp]
  · have hnone : alookup m k = none := Option.not_isSome_iff_eq_none.mp h
    have h1 : aset m k v = m ++ [(k, v)] := by unfold aset; simp [h]
    have h2 : aset m k w = m ++ [(k, w)] := by unfold aset; simp [h]
    rw [h3, h1, h2, List.map_append, map_eq_self_of_alookup_none m k w hnone]
    simp

theorem alookup_mem {α : Type} (m : List (String × α)) (k : String) (v : α)
    (h : alookup m k = some v) : (k, v) ∈ m := by
  induction m with
  | nil => simp [alookup] at h
  | cons e es ih =>
    by_cases hk : e.1 = k
    · have h1 : e.2 = v := by simpa [alookup, hk] using h
      have h2 : e = (k, v) := by
        obtain ⟨a, b⟩ := e
        exact Prod.ext hk h1
      rw [← h2]
      exact List.mem_cons_self e es
    · simp only [alookup, hk, if_false] at h
      exact List.mem_cons_of_mem _ (ih h)

theorem map_id_on {α : Type} (l : List α) (f : α → α) (h : ∀ a ∈ l, f a = a) :
    l.map f = l := by
  induction l with
  | nil => rfl
  | cons a l ih =>
    simp only [List.map_cons, h a (List.mem_cons_self a l)]
    rw [ih (fun b hb => h b (List.mem_cons_of_mem a hb))]

/-! Sparse-array write lemmas. -/

theorem set_get?_self {α : Type} (l : List α) (n : Nat) (x : α) (h : l.get? n = some x) :
    l.set n x = l := by
  induction l generalizing n with
  | nil => simp at h
  | cons a l ih =>
    cases n with
    | zero =>
      have hx : a = x := by simpa using h
      simp [hx]
    | succ n =>
      have h' : l.get? n = some x := by simpa using h
      simp [ih n h']

theorem setAnswer_length_of_ge (l : List (Option Nat)) (q a : Nat) (h : l.length ≤ q) :
    (setAnswer l q a).length = q + 1 := by
  unfold setAnswer
  have h2 : ¬q < l.length := Nat.not_lt.mpr h
  simp only [h2, if_false, List.length_append, List.length_replicate, List.length_cons,
    List.length_nil]
  omega

theorem setAnswer_get_self (l : List (Option Nat)) (q a : Nat) :
    (setAnswer l q a).get? q = some (some a) := by
  unfold setAnswer
  by_cases h : q < l.length
  · simp only [h, if_true]
    rw [List.get?_set_eq]
    rw [List.get?_eq_get h]
    rfl
  · simp only [h, if_false]
    have hlen : (l ++ List.replicate (q - l.length) (none : Option Nat)).length = q := by
      simp only [List.length_append, List.length_replicate]
      omega
    rw [List.get?_eq_getElem?, List.getElem?_append_right hlen.le]
    simp [hlen]

theorem setAnswer_idem (l : List (Option Nat)) (q a : Nat) :
    setAnswer (setAnswer l q a) q a = setAnswer l q a := by
  have hset : ∀ L : List (Option Nat), q < L.length → setAnswer L q a = L.set q (some a) := by
    intro L hL
    unfold setAnswer
    simp [hL]
  by_cases h : q < l.length
  · have e1 : setAnswer l q a = l.set q (some a) := hset l h
    rw [e1]
    have h2 : q < (l.set q (some a)).length := by simpa [List.length_set] using h
    rw [hset _ h2, List.set_set]
  · have hL : (setAnswer l q a).length = q + 1 :=
      setAnswer_length_of_ge l q a (Nat.le_of_not_lt h)
    have h2 : q < (setAnswer l q a).length := by omega
    rw [hset _ h2]
    exact set_get?_self _ q _ (setAnswer_get_self l q a)

/-! Quiz reducer lemmas. -/

theorem quiz_step_answers (net : Network) (st : GameState) (s : String) (q a : Nat) :
    alookup (stepMsg net st (GameMsg.submit_quiz_answer s q a)).quizAnswers s
      = some (setAnswer ((alookup st.quizAnswers s).getD []) q a) := by
  show alookup (aset st.quizAnswers s (setAnswer ((alookup st.quizAnswers s).getD []) q a)) s
      = _
  exact alookup_aset_self _ _ _

theorem quiz_step_score (net : Network) (st : GameState) (s : String) (q a : Nat) :
    ∀ p ∈ (stepMsg net st (GameMsg.submit_quiz_answer s q a)).players, p.id = s →
      p.quizScore = computeScore (setAnswer ((alookup st.quizAnswers s).getD []) q a) := by
  intro p hp hid
  have hp' : p ∈ st.players.map (fun p0 =>
      if p0.id = s then
        { p0 with quizScore :=
            computeScore (setAnswer ((alookup st.quizAnswers s).getD []) q a) }
      else p0) := hp
  obtain ⟨p0, _, hfp⟩ := List.mem_map.mp hp'
  by_cases h0 : p0.id = s
  · rw [← hfp]
    simp [h0]
  · exfalso
    apply h0
    rw [← hfp] at hid
    simpa [h0] using hid

theorem map_if_score_idem (ps : List Player) (s : String) (sc : Nat) :
    (ps.map (fun p => if p.id = s then { p with quizScore := sc } else p)).map
        (fun p => if p.id = s then { p with quizScore := sc } else p)
      = ps.map (fun p => if p.id = s then { p with quizScore := sc } else p) := by
  rw [List.map_map]
  apply List.map_congr_left
  intro p _
  by_cases h : p.id = s <;> simp [h, Function.comp]

theorem quiz_step_replay (net : Network) (st : GameState) (s : String) (q a : Nat) :
    stepMsg net (stepMsg net st (GameMsg.submit_quiz_answer s q a))
        (GameMsg.submit_quiz_answer s q a)
      = stepMsg net st (GameMsg.submit_quiz_answer s q a) := by
  simp only [stepMsg, handleMessage]
  rw [alookup_aset_self]
  simp only [Option.getD_some, setAnswer_idem, aset_aset_self]
  rw [map_if_score_idem]

/-! Concrete fixtures used by witnesses and counterexamples. -/

def c1net : Network := { playerId := "host", connections := [("p1", true)] }

def c1player : Player := { id := "p1", name := "Pat", isHost := false }

def c1state : GameState := { createInitialGameState "AB23" with players := [c1player] }

/-- Claim C1: over any sequence of submit_quiz_answer messages (duplicates
and out-of-order included), after each message the sender quizScore equals
the recomputed count of recorded answers matching the correct index, the
just-answered slot holds the latest answer, and replaying the last message
leaves the state unchanged. -/
theorem c1_quiz_score_recomputation (net : Network) (st : GameState)
    (evs : List (String × Nat × Nat)) (s : String) (q a : Nat) :
    (∀ p ∈ (runMsgs net st
        (evs.map (fun e => GameMsg.submit_quiz_answer e.1 e.2.1 e.2.2)
          ++ [GameMsg.submit_quiz_answer s q a])).players,
      p.id = s →
        p.quizScore = computeScore ((alookup (runMsgs net st
          (evs.map (fun e => GameMsg.submit_quiz_answer e.1 e.2.1 e.2.2)
            ++ [GameMsg.submit_quiz_answer s q a])).quizAnswers s).getD []))
    ∧ ((alookup (runMsgs net st
          (evs.map (fun e => GameMsg.submit_quiz_answer e.1 e.2.1 e.2.2)
            ++ [GameMsg.submit_quiz_answer s q a])).quizAnswers s).getD []).get? q
        = some (some a)
    ∧ stepMsg net (runMsgs net st
          (evs.map (fun e => GameMsg.submit_quiz_answer e.1 e.2.1 e.2.2)
            ++ [GameMsg.submit_quiz_answer s q a]))
        (GameMsg.submit_quiz_answer s q a)
      = runMsgs net st
          (evs.map (fun e => GameMsg.submit_quiz_answer e.1 e.2.1 e.2.2)
            ++ [GameMsg.submit_quiz_answer s q a]) := by
  have hsplit : runMsgs net st
      (evs.map (fun e => GameMsg.submit_quiz_answer e.1 e.2.1 e.2.2)
        ++ [GameMsg.submit_quiz_answer s q a])
      = stepMsg net
          (runMsgs net st (evs.map (fun e => GameMsg.submit_quiz_answer e.1 e.2.1 e.2.2)))
          (GameMsg.submit_quiz_answer s q a) := by
    simp [runMsgs, List.foldl_append]
  rw [hsplit]
  refine ⟨?_, ?_, ?_⟩
  · intro p hp hid
    have hsc := quiz_step_score net _ s q a p hp hid
    rw [quiz_step_answers]
    simpa using hsc
  · rw [quiz_step_answers]
    simp only [Option.getD_some]
    exact setAnswer_get_self _ q a
  · exact quiz_step_replay net _ s q a

/-- Witness for C1 at a concrete room: one player answers question 0 wrong
then right; the recorded score matches the recomputation and replay is a
no-op. -/
theorem c1_quiz_score_recomputation_witness :
    (((runMsgs c1net c1state
        [GameMsg.submit_quiz_answer "p1" 0 3, GameMsg.submit_quiz_answer "p1" 0 2]).players.headD
          c1player).quizScore
      = computeScore ((alookup (runMsgs c1net c1state
          [GameMsg.submit_quiz_answer "p1" 0 3, GameMsg.submit_quiz_answer "p1" 0 2]).quizAnswers
            "p1").getD []))
    ∧ stepMsg c1net (runMsgs c1net c1state
          [GameMsg.submit_quiz_answer "p1" 0 3, GameMsg.submit_quiz_answer "p1" 0 2])
        (GameMsg.submit_quiz_answer "p1" 0 2)
      = runMsgs c1net c1state
          [GameMsg.submit_quiz_answer "p1" 0 3, GameMsg.submit_quiz_answer "p1" 0 2] := by
  have h := c1_quiz_score_recomputation c1net c1state [("p1", 0, 3)] "p1" 0 2
  exact ⟨h.1 _ (by decide) (by decide), h.2.2⟩

/-! Reaction reducer lemmas. -/

/-- The voter-set update performed by the submit_reaction case: remove the
sender from both sets, then push the sender onto the set named by the
reaction type. -/
def reactUpd (r : ReactionEntry) (v : String) (ty : ReactionType) : ReactionEntry :=
  let r1 : ReactionEntry :=
    { thumbsUp := r.thumbsUp.filter (fun i => i != v),
      thumbsDown := r.thumbsDown.filter (fun i => i != v) }
  match ty with
  | ReactionType.thumbsUp => { r1 with thumbsUp := r1.thumbsUp ++ [v] }
  | ReactionType.thumbsDown => { r1 with thumbsDown := r1.thumbsDown ++ [v] }

theorem react_step_state (net : Network) (st : GameState) (v t : String) (ty : ReactionType) :
    stepMsg net st (GameMsg.submit_reaction v t ty)
      = { st with
          reactions := aset st.reactions t
            (reactUpd ((alookup st.reactions t).getD { thumbsUp := [], thumbsDown := [] }) v ty),
          players := st.players.map (fun p =>
            if p.id = t then
              let rr := (alookup
                (aset st.reactions t
                  (reactUpd ((alookup st.reactions t).getD { thumbsUp := [], thumbsDown := [] })
                    v ty))
                p.id).getD { thumbsUp := [], thumbsDown := [] }
              { p with thumbsUp := rr.thumbsUp.length, thumbsDown := rr.thumbsDown.length }
            else p) } := by
  cases ty <;> rfl

theorem mem_aset {α : Type} (m : List (String × α)) (k : String) (v : α) :
    ∀ e ∈ aset m k v, e = (k, v) ∨ e ∈ m := by
  intro e he
  unfold aset at he
  by_cases hs : (alookup m k).isSome
  · simp only [hs, if_true] at he
    obtain ⟨e0, he0, hfe⟩ := List.mem_map.mp he
    by_cases hk : e0.1 = k
    · left
      rw [← hfe]
      simp [hk]
    · right
      rw [← hfe]
      simp only [hk, if_false]
      exact he0
  · simp only [hs, if_false] at he
    rcases List.mem_append.mp he with h1 | h2
    · right
      exact h1
    · left
      simpa using h2

/-- The voter-exclusivity invariant: for every target entry, the
concatenation of its two voter sets has no duplicate, so each voter sits
in at most one set, at most once. -/
def RInv (st : GameState) : Prop :=
  ∀ e ∈ st.reactions, (e.2.thumbsUp ++ e.2.thumbsDown).Nodup

instance (st : GameState) : Decidable (RInv st) := by
  unfold RInv
  infer_instance

theorem reactUpd_nodup (r : ReactionEntry) (v : String) (ty : ReactionType)
    (h : (r.thumbsUp ++ r.thumbsDown).Nodup) :
    ((reactUpd r v ty).thumbsUp ++ (reactUpd r v ty).thumbsDown).Nodup := by
  have hU : r.thumbsUp.Nodup := (List.nodup_append.mp h).1
  have hD : r.thumbsDown.Nodup := (List.nodup_append.mp h).2.1
  have hdisj : r.thumbsUp.Disjoint r.thumbsDown := (List.nodup_append.mp h).2.2
  have hUf : (r.thumbsUp.filter (fun i => i != v)).Nodup := hU.filter _
  have hDf : (r.thumbsDown.filter (fun i => i != v)).Nodup := hD.filter _
  have hvU : v ∉ r.thumbsUp.filter (fun i => i != v) := by
    intro hv
    have := (List.mem_filter.mp hv).2
    simp at this
  have hvD : v ∉ r.thumbsDown.filter (fun i => i != v) := by
    intro hv
    have := (List.mem_filter.mp hv).2
    simp at this
  have hdisjf : (r.thumbsUp.filter (fun i => i != v)).Disjoint
      (r.thumbsDown.filter (fun i => i != v)) := by
    intro x hx hy
    exact hdisj (List.mem_filter.mp hx).1 (List.mem_filter.mp hy).1
  cases ty with
  | thumbsUp =>
    show ((r.thumbsUp.filter (fun i => i != v) ++ [v])
        ++ r.thumbsDown.filter (fun i => i != v)).Nodup
    rw [List.nodup_append]
    refine ⟨?_, hDf, ?_⟩
    · rw [List.nodup_append]
      refine ⟨hUf, List.nodup_singleton v, ?_⟩
      intro x hx hxv
      have hxv' : x = v := by simpa using hxv
      exact hvU (hxv' ▸ hx)
    · intro x hx hy
      rcases List.mem_append.mp hx with hx1 | hx2
      · exact hdisjf hx1 hy
      · have hxv' : x = v := by simpa using hx2
        exact hvD (hxv' ▸ hy)
  | thumbsDown =>
    show (r.thumbsUp.filter (fun i => i != v)
        ++ (r.thumbsDown.filter (fun i => i != v) ++ [v])).Nodup
    rw [List.nodup_append]
    refine ⟨hUf, ?_, ?_⟩
    · rw [List.nodup_append]
      refine ⟨hDf, List.nodup_singleton v, ?_⟩
      intro x hx hxv
      have hxv' : x = v := by simpa using hxv
      exact hvD (hxv' ▸ hx)
    · intro x hx hy
      rcases List.mem_append.mp hy with hy1 | hy2
      · exact hdisjf hx hy1
      · have hxv' : x = v := by simpa using hy2
        exact hvU (hxv' ▸ hx)

theorem react_step_inv (net : Network) (st : GameState) (v t : String) (ty : ReactionType)
    (h : RInv st) : RInv (stepMsg net st (GameMsg.submit_reaction v t ty)) := by
  rw [react_step_state]
  intro e he
  have he' := mem_aset _ _ _ e he
  rcases he' with he1 | he2
  · rw [he1]
    apply reactUpd_nodup
    cases hl : alookup st.reactions t with
    | none => simp
    | some r' =>
      have hmem := alookup_mem _ _ _ hl
      simpa using h _ hmem
  · exact h e he2

theorem react_run_inv (net : Network) (evs : List (String × String × ReactionType)) :
    ∀ st : GameState, RInv st →
      RInv (runMsgs net st (evs.map (fun e => GameMsg.submit_reaction e.1 e.2.1 e.2.2))) := by
  induction evs with
  | nil => exact fun st h => h
  | cons e evs ih =>
    intro st h
    exact ih _ (react_step_inv net st e.1 e.2.1 e.2.2 h)

theorem filter_ne_idem (l : List String) (v : String) :
    (l.filter (fun i => i != v)).filter (fun i => i != v) = l.filter (fun i => i != v) := by
  rw [List.filter_filter]
  apply List.filter_congr
  intro x _
  exact Bool.and_self _

theorem filter_ne_append_cancel (l : List String) (v : String) :
    ((l.filter (fun i => i != v)) ++ [v]).filter (fun i => i != v)
      = l.filter (fun i => i != v) := by
  rw [List.filter_append, filter_ne_idem]
  simp

theorem count_filter_ne_self (l : List String) (v : String) :
    (l.filter (fun i => i != v)).count v = 0 := by
  rw [List.count_eq_zero]
  intro hv
  have := (List.mem_filter.mp hv).2
  simp at this

theorem reactUpd_chain (r : ReactionEntry) (v : String) :
    reactUpd (reactUpd (reactUpd r v ReactionType.thumbsUp) v ReactionType.thumbsDown) v
        ReactionType.thumbsUp
      = reactUpd r v ReactionType.thumbsUp := by
  simp only [reactUpd]
  simp [filter_ne_idem, filter_ne_append_cancel]

theorem react_step_state_aset (net : Network) (st : GameState)
    (m0 : List (String × ReactionEntry)) (v t : String) (ty : ReactionType)
    (E : ReactionEntry) (hst : st.reactions = aset m0 t E) :
    stepMsg net st (GameMsg.submit_reaction v t ty)
      = { st with
          reactions := aset m0 t (reactUpd E v ty),
          players := st.players.map (fun p =>
            if p.id = t then
              let rr := (alookup (aset m0 t (reactUpd E v ty)) p.id).getD
                { thumbsUp := [], thumbsDown := [] }
              { p with thumbsUp := rr.thumbsUp.length, thumbsDown := rr.thumbsDown.length }
            else p) } := by
  rw [react_step_state, hst, alookup_aset_self]
  simp only [Option.getD_some]
  rw [aset_aset_self]

theorem react_switch_restore (net : Network) (st : GameState) (v t : String) :
    stepMsg net
        (stepMsg net (stepMsg net st (GameMsg.submit_reaction v t ReactionType.thumbsUp))
          (GameMsg.submit_reaction v t ReactionType.thumbsDown))
        (GameMsg.submit_reaction v t ReactionType.thumbsUp)
      = stepMsg net st (GameMsg.submit_reaction v t ReactionType.thumbsUp) := by
  rw [react_step_state net st v t ReactionType.thumbsUp]
  rw [react_step_state_aset net _ st.reactions v t ReactionType.thumbsDown _ rfl]
  rw [react_step_state_aset net _ st.reactions v t ReactionType.thumbsUp _ rfl]
  rw [reactUpd_chain]
  dsimp only
  rw [List.map_map, List.map_map]
  simp only [GameState.mk.injEq, and_true, true_and]
  apply List.map_congr_left
  intro p _
  by_cases h : p.id = t
  · simp [h, Function.comp, alookup_aset_self]
  · simp [h, Function.comp]

theorem react_step_counts (net : Network) (st : GameState) (v t : String) (ty : ReactionType) :
    ∀ p ∈ (stepMsg net st (GameMsg.submit_reaction v t ty)).players, p.id = t →
      p.thumbsUp = ((alookup (stepMsg net st (GameMsg.submit_reaction v t ty)).reactions t).getD
          { thumbsUp := [], thumbsDown := [] }).thumbsUp.length ∧
      p.thumbsDown = ((alookup (stepMsg net st (GameMsg.submit_reaction v t ty)).reactions t).getD
          { thumbsUp := [], thumbsDown := [] }).thumbsDown.length := by
  rw [react_step_state]
  intro p hp hid
  obtain ⟨p0, _, hfp⟩ := List.mem_map.mp hp
  by_cases h0 : p0.id = t
  · rw [← hfp]
    simp [h0, alookup_aset_self]
  · exfalso
    apply h0
    rw [← hfp] at hid
    simpa [h0] using hid

theorem react_step_sender_vote (net : Network) (st : GameState) (v t : String)
    (ty : ReactionType) :
    ((alookup (stepMsg net st (GameMsg.submit_reaction v t ty)).reactions t).getD
        { thumbsUp := [], thumbsDown := [] }).thumbsUp.count v
      = (if ty = ReactionType.thumbsUp then 1 else 0) ∧
    ((alookup (stepMsg net st (GameMsg.submit_reaction v t ty)).reactions t).getD
        { thumbsUp := [], thumbsDown := [] }).thumbsDown.count v
      = (if ty = ReactionType.thumbsDown then 1 else 0) := by
  rw [react_step_state]
  dsimp only
  rw [alookup_aset_self]
  cases ty <;> simp [reactUpd, List.count_append, count_filter_ne_self]

def c2net : Network := { playerId := "host", connections := [("carol", true), ("dave", true)] }

def c2dave : Player := { id := "dave", name := "Dave", isHost := false }

def c2state : GameState := { createInitialGameState "CD45" with players := [c2dave] }

/-- Claim C2: over submit_reaction sequences the voter-exclusivity
invariant is preserved (each voter in at most one voter set of any target,
at most once); after each reaction the sender occupies exactly the named
voter set of the target once and the other not at all, the target players
counts equal the voter-set sizes, and an up-down-up switch restores the
state after the first up exactly. -/
theorem c2_reaction_voter_exclusivity (net : Network) (st : GameState) (hInv : RInv st) :
    (∀ evs : List (String × String × ReactionType),
      RInv (runMsgs net st (evs.map (fun e => GameMsg.submit_reaction e.1 e.2.1 e.2.2)))) ∧
    (∀ (v t : String) (ty : ReactionType),
      (∀ p ∈ (stepMsg net st (GameMsg.submit_reaction v t ty)).players, p.id = t →
        p.thumbsUp = ((alookup (stepMsg net st (GameMsg.submit_reaction v t ty)).reactions
            t).getD { thumbsUp := [], thumbsDown := [] }).thumbsUp.length ∧
        p.thumbsDown = ((alookup (stepMsg net st (GameMsg.submit_reaction v t ty)).reactions
            t).getD { thumbsUp := [], thumbsDown := [] }).thumbsDown.length) ∧
      ((alookup (stepMsg net st (GameMsg.submit_reaction v t ty)).reactions t).getD
          { thumbsUp := [], thumbsDown := [] }).thumbsUp.count v
        = (if ty = ReactionType.thumbsUp then 1 else 0) ∧
      ((alookup (stepMsg net st (GameMsg.submit_reaction v t ty)).reactions t).getD
          { thumbsUp := [], thumbsDown := [] }).thumbsDown.count v
        = (if ty = ReactionType.thumbsDown then 1 else 0)) ∧
    (∀ v t : String,
      stepMsg net
          (stepMsg net (stepMsg net st (GameMsg.submit_reaction v t ReactionType.thumbsUp))
            (GameMsg.submit_reaction v t ReactionType.thumbsDown))
          (GameMsg.submit_reaction v t ReactionType.thumbsUp)
        = stepMsg net st (GameMsg.submit_reaction v t ReactionType.thumbsUp)) := by
  refine ⟨fun evs => react_run_inv net evs st hInv, fun v t ty => ?_, fun v t =>
    react_switch_restore net st v t⟩
  exact ⟨react_step_counts net st v t ty, (react_step_sender_vote net st v t ty).1,
    (react_step_sender_vote net st v t ty).2⟩

/-- Witness for C2 at a concrete room: Carol votes up then down on Dave;
the invariant holds along the run and the up-down-up switch restores the
post-up state. -/
theorem c2_reaction_voter_exclusivity_witness :
    RInv c2state ∧
    RInv (runMsgs c2net c2state
      [GameMsg.submit_reaction "carol" "dave" ReactionType.thumbsUp,
        GameMsg.submit_reaction "carol" "dave" ReactionType.thumbsDown]) ∧
    stepMsg c2net
        (stepMsg c2net
          (stepMsg c2net c2state (GameMsg.submit_reaction "carol" "dave" ReactionType.thumbsUp))
          (GameMsg.submit_reaction "carol" "dave" ReactionType.thumbsDown))
        (GameMsg.submit_reaction "carol" "dave" ReactionType.thumbsUp)
      = stepMsg c2net c2state (GameMsg.submit_reaction "carol" "dave" ReactionType.thumbsUp) := by
  have h := c2_reaction_voter_exclusivity c2net c2state (by decide)
  exact ⟨by decide,
    h.1 [("carol", "dave", ReactionType.thumbsUp), ("carol", "dave", ReactionType.thumbsDown)],
    h.2.2 "carol" "dave"⟩

/-! Broadcast delivery lemmas. -/

theorem broadcastAll_countP_zero (net : Network) (st : GameState) (pid : String)
    (h : pid ∉ net.connections.map Prod.fst) :
    (broadcastAll net st).countP (fun e => e.1 == pid) = 0 := by
  unfold broadcastAll
  revert h
  generalize net.connections = l
  induction l with
  | nil => intro _; rfl
  | cons c cs ih =>
    intro h
    have h1 : pid ∉ cs.map Prod.fst := fun hm => h (List.mem_cons_of_mem _ hm)
    have h2 : c.1 ≠ pid := by
      intro he
      exact h (by simp [he])
    by_cases hc : c.2
    · simp [List.filter_cons, hc, List.countP_cons, h2, ih h1]
    · simp [List.filter_cons, hc, ih h1]

theorem broadcastAll_countP_one (net : Network) (st : GameState) (pid : String) (b : Bool)
    (hnd : (net.connections.map Prod.fst).Nodup) (hmem : (pid, b) ∈ net.connections) :
    (broadcastAll net st).countP (fun e => e.1 == pid) = if b then 1 else 0 := by
  have hzero : ∀ (l : List (String × Bool)), pid ∉ l.map Prod.fst →
      (((l.filter (fun c => c.2)).map
        (fun c => (c.1, WireMsg.gameStateUpdate st net.playerId))).countP
          (fun e => e.1 == pid)) = 0 := by
    intro l
    induction l with
    | nil => intro _; rfl
    | cons c cs ih =>
      intro h
      have h1 : pid ∉ cs.map Prod.fst := fun hm => h (List.mem_cons_of_mem _ hm)
      have h2 : c.1 ≠ pid := by
        intro he
        exact h (by simp [he])
      by_cases hc : c.2
      · simp [List.filter_cons, hc, List.countP_cons, h2, ih h1]
      · simp [List.filter_cons, hc, ih h1]
  unfold broadcastAll
  revert hnd hmem
  generalize net.connections = l
  induction l with
  | nil =>
    intro _ hmem
    simp at hmem
  | cons c cs ih =>
    intro hnd hmem
    have hnd' : (c.1 :: cs.map Prod.fst).Nodup := by simpa using hnd
    obtain ⟨hnotin, hnd1⟩ := List.nodup_cons.mp hnd'
    rcases List.mem_cons.mp hmem with hc | hcs
    · have ha : c.1 = pid := by rw [← hc]
      have hb2 : c.2 = b := by rw [← hc]
      have hnotin' : pid ∉ cs.map Prod.fst := ha ▸ hnotin
      by_cases hcb : c.2
    
      · have hb : b = true := by rw [← hb2, hcb]
        simp [List.filter_cons, hcb, List.countP_cons, ha, hzero cs hnotin', hb]
      · have hb : b = false := by rw [← hb2]; simpa using hcb
        simp [List.filter_cons, hcb, hzero cs hnotin', hb]
    · have hpidmem : pid ∈ cs.map Prod.fst := List.mem_map.mpr ⟨(pid, b), hcs, rfl⟩
      have hne : c.1 ≠ pid := fun he => hnotin (he ▸ hpidmem)
      by_cases hcb : c.2
      · simp [List.filter_cons, hcb, List.countP_cons, hne, ih hnd1 hcs]
      · simp [List.filter_cons, hcb, ih hnd1 hcs]

/-- Claim C5: each of the five mutating reducer cases is followed by
exactly one broadcast of the complete new snapshot: the emitted deliveries
are precisely one copy of the new state per currently-open connection and
none for closed or unknown peers. -/
theorem c5_broadcast_after_mutation (net : Network) (st : GameState) (m : GameMsg)
    (h : m.isMutating = true) :
    (handleMessage net st m).2 = broadcastAll net (handleMessage net st m).1 ∧
    (∀ e ∈ (handleMessage net st m).2,
      e.2 = WireMsg.gameStateUpdate (handleMessage net st m).1 net.playerId) ∧
    ((net.connections.map Prod.fst).Nodup →
      ∀ (pid : String) (b : Bool), (pid, b) ∈ net.connections →
        ((handleMessage net st m).2.countP (fun e => e.1 == pid)) = if b then 1 else 0) ∧
    (∀ pid : String, pid ∉ net.connections.map Prod.fst →
      ((handleMessage net st m).2.countP (fun e => e.1 == pid)) = 0) := by
  have hb : (handleMessage net st m).2 = broadcastAll net (handleMessage net st m).1 := by
    cases m with
    | player_joined s n => rfl
    | submit_sentence s n => rfl
    | submit_quiz_answer s q a => rfl
    | submit_drawing s u => rfl
    | submit_reaction s t ty => rfl
    | request_sync s => simp [GameMsg.isMutating] at h
  refine ⟨hb, ?_, ?_, ?_⟩
  · intro e he
    rw [hb] at he
    unfold broadcastAll at he
    obtain ⟨c, _, hce⟩ := List.mem_map.mp he
    rw [← hce]
  · intro hnd pid b hmem
    rw [hb]
    exact broadcastAll_countP_one net _ pid b hnd hmem
  · intro pid hpid
    rw [hb]
    exact broadcastAll_countP_zero net _ pid hpid

def c5net : Network := { playerId := "host", connections := [("a", true), ("b", false)] }

/-- Witness for C5: a join processed with one open and one closed
connection delivers exactly one snapshot to the open peer, none to the
closed one. -/
theorem c5_broadcast_after_mutation_witness :
    GameMsg.isMutating (GameMsg.player_joined "a" "Al") = true ∧
    (handleMessage c5net c1state (GameMsg.player_joined "a" "Al")).2
      = broadcastAll c5net (handleMessage c5net c1state (GameMsg.player_joined "a" "Al")).1 ∧
    ((handleMessage c5net c1state (GameMsg.player_joined "a" "Al")).2.countP
      (fun e => e.1 == "a")) = 1 ∧
    ((handleMessage c5net c1state (GameMsg.player_joined "a" "Al")).2.countP
      (fun e => e.1 == "b")) = 0 := by
  have h := c5_broadcast_after_mutation c5net c1state (GameMsg.player_joined "a" "Al") rfl
  refine ⟨rfl, h.1, ?_, ?_⟩
  · have h1 := h.2.2.1 (by decide) "a" true (by decide)
    simpa using h1
  · have h1 := h.2.2.1 (by decide) "b" false (by decide)
    simpa using h1

/-- Claim C6: request_sync leaves the canonical state untouched and emits
only a direct reply to the requesting sender carrying the full current
snapshot; with the sender connection open the reply is exactly one
message, and no delivery ever targets another peer. -/
theorem c6_request_sync_direct_reply (net : Network) (st : GameState) (s : String) :
    (handleMessage net st (GameMsg.request_sync s)).1 = st ∧
    (∀ e ∈ (handleMessage net st (GameMsg.request_sync s)).2,
      e.1 = s ∧ e.2 = WireMsg.gameStateUpdate st net.playerId) ∧
    (alookup net.connections s = some true →
      (handleMessage net st (GameMsg.request_sync s)).2
        = [(s, WireMsg.gameStateUpdate st net.playerId)]) := by
  refine ⟨rfl, ?_, ?_⟩
  · intro e he
    have he' : e ∈ sendToPlayerNet net s st := he
    unfold sendToPlayerNet at he'
    cases hl : alookup net.connections s with
    | none =>
      rw [hl] at he'
      simp at he'
    | some b =>
      cases b with
      | true =>
        rw [hl] at he'
        simp at he'
        rw [he']
        exact ⟨rfl, rfl⟩
      | false =>
        rw [hl] at he'
        simp at he'
  · intro hl
    show sendToPlayerNet net s st = _
    unfold sendToPlayerNet
    rw [hl]

/-- Witness for C6: with the requester connected and open, the host state
is unchanged and the only delivery is the direct snapshot reply. -/
theorem c6_request_sync_direct_reply_witness :
    (handleMessage c1net c1state (GameMsg.request_sync "p1")).1 = c1state ∧
    (handleMessage c1net c1state (GameMsg.request_sync "p1")).2
      = [("p1", WireMsg.gameStateUpdate c1state c1net.playerId)] := by
  have h := c6_request_sync_direct_reply c1net c1state "p1"
  exact ⟨h.1, h.2.2 (by decide)⟩

/-- Claim C9: a transport-reported disconnection removes exactly the
entries with the departed id from players, in an order-preserving way,
leaves every other state field (quizAnswers and reactions in particular)
untouched, and broadcasts the updated snapshot. -/
theorem c9_disconnection_removal (net : Network) (st : GameState) (pid : String) :
    (handleDisconnection net st pid).1.players = st.players.filter (fun p => p.id != pid) ∧
    (∀ p ∈ (handleDisconnection net st pid).1.players, p.id ≠ pid) ∧
    (handleDisconnection net st pid).1.players.Sublist st.players ∧
    (∀ p ∈ st.players, p.id ≠ pid → p ∈ (handleDisconnection net st pid).1.players) ∧
    (handleDisconnection net st pid).1.phase = st.phase ∧
    (handleDisconnection net st pid).1.roomCode = st.roomCode ∧
    (handleDisconnection net st pid).1.currentQuestionIndex = st.currentQuestionIndex ∧
    (handleDisconnection net st pid).1.quizAnswers = st.quizAnswers ∧
    (handleDisconnection net st pid).1.quizTimeRemaining = st.quizTimeRemaining ∧
    (handleDisconnection net st pid).1.drawingTimeRemaining = st.drawingTimeRemaining ∧
    (handleDisconnection net st pid).1.currentSlideIndex = st.currentSlideIndex ∧
    (handleDisconnection net st pid).1.slideTimeRemaining = st.slideTimeRemaining ∧
    (handleDisconnection net st pid).1.reactions = st.reactions ∧
    (handleDisconnection net st pid).2 = broadcastAll net (handleDisconnection net st pid).1 := by
  refine ⟨rfl, ?_, ?_, ?_, rfl, rfl, rfl, rfl, rfl, rfl, rfl, rfl, rfl, rfl⟩
  · intro p hp
    have hmem : p ∈ st.players.filter (fun p => p.id != pid) := hp
    have := (List.mem_filter.mp hmem).2
    simpa using this
  · exact List.filter_sublist _
  · intro p hp hne
    show p ∈ st.players.filter (fun p => p.id != pid)
    apply List.mem_filter.mpr
    exact ⟨hp, by simpa using hne⟩

def c9p2 : Player := { id := "p2", name := "Quinn", isHost := false }

def c9state : GameState :=
  { createInitialGameState "EF67" with
    players := [c2dave, c9p2],
    quizAnswers := [("p2", [some 1])],
    reactions := [("dave", { thumbsUp := ["p2"], thumbsDown := [] })] }

/-- Witness for C9: after p2 disconnects, the players list drops p2 only
while the orphaned quizAnswers and reactions entries of p2 remain. -/
theorem c9_disconnection_removal_witness :
    (handleDisconnection c2net c9state "p2").1.players
      = c9state.players.filter (fun p => p.id != "p2") ∧
    ((handleDisconnection c2net c9state "p2").1.players.headD c9p2).id ≠ "p2" ∧
    (handleDisconnection c2net c9state "p2").1.quizAnswers = c9state.quizAnswers ∧
    (handleDisconnection c2net c9state "p2").1.reactions = c9state.reactions := by
  have h := c9_disconnection_removal c2net c9state "p2"
  exact ⟨h.1, h.2.1 _ (by decide), h.2.2.2.2.2.2.2.1, h.2.2.2.2.2.2.2.2.2.2.2.2.1⟩

/-- The Player record appended by the player_joined case: non-host, zero
scores and counts, and no sentence, drawing or assignment. -/
def joinedPlayer (sender pname : String) : Player :=
  { id := sender, name := pname, isHost := false, sentence := none, quizScore := 0,
    drawingDataUrl := none, assignedSentence := none, thumbsUp := 0, thumbsDown := 0 }

/-- Claim C10: player_joined appends, in any phase and with no duplicate
check, a fresh non-host Player with zeroed scores and counts and no
sentence, drawing or assignment; everything else is untouched, and a
duplicate join from the same sender yields two entries with the same id. -/
theorem c10_player_joined_append (net : Network) (st : GameState) (sender pname : String) :
    (stepMsg net st (GameMsg.player_joined sender pname)).players
      = st.players ++ [joinedPlayer sender pname] ∧
    (stepMsg net st (GameMsg.player_joined sender pname)).phase = st.phase ∧
    (stepMsg net st (GameMsg.player_joined sender pname)).roomCode = st.roomCode ∧
    (stepMsg net st (GameMsg.player_joined sender pname)).currentQuestionIndex
      = st.currentQuestionIndex ∧
    (stepMsg net st (GameMsg.player_joined sender pname)).quizAnswers = st.quizAnswers ∧
    (stepMsg net st (GameMsg.player_joined sender pname)).quizTimeRemaining
      = st.quizTimeRemaining ∧
    (stepMsg net st (GameMsg.player_joined sender pname)).drawingTimeRemaining
      = st.drawingTimeRemaining ∧
    (stepMsg net st (GameMsg.player_joined sender pname)).currentSlideIndex
      = st.currentSlideIndex ∧
    (stepMsg net st (GameMsg.player_joined sender pname)).slideTimeRemaining
      = st.slideTimeRemaining ∧
    (stepMsg net st (GameMsg.player_joined sender pname)).reactions = st.reactions ∧
    ((stepMsg net (stepMsg net st (GameMsg.player_joined sender pname))
        (GameMsg.player_joined sender pname)).players.countP (fun p => p.id == sender))
      = st.players.countP (fun p => p.id == sender) + 2 := by
  refine ⟨rfl, rfl, rfl, rfl, rfl, rfl, rfl, rfl, rfl, rfl, ?_⟩
  show (((st.players ++ [joinedPlayer sender pname])
      ++ [joinedPlayer sender pname]).countP (fun p => p.id == sender))
    = st.players.countP (fun p => p.id == sender) + 2
  simp [List.countP_append, List.countP_cons, joinedPlayer]

/-- Claim C7 counterexample: a player whose drawingDataUrl is already set
submits a second drawing and the reducer overwrites the stored value, so
the first-submitted value does not persist. -/
def c7net : Network := { playerId := "host", connections := [("p", true)] }

def c7player : Player := { id := "p", name := "Pia", isHost := false, drawingDataUrl := some "a" }

def c7state : GameState := { createInitialGameState "GH89" with players := [c7player] }

theorem c7_drawing_overwrite_counterexample :
    c7state.players.map Player.drawingDataUrl = [some "a"] ∧
    (stepMsg c7net c7state (GameMsg.submit_drawing "p" "b")).players.map Player.drawingDataUrl
      = [some "b"] ∧
    (some "b" : Option String) ≠ some "a" := by
  decide

/-- Claim C7 amended: submit_drawing always sets the sender
drawingDataUrl to the newly submitted value, overwriting any earlier one,
while players with other ids and all other state fields are unchanged. -/
theorem c7_drawing_set_overwrites (net : Network) (st : GameState) (sender url : String) :
    (stepMsg net st (GameMsg.submit_drawing sender url)).players
      = st.players.map
          (fun p => if p.id = sender then { p with drawingDataUrl := some url } else p) ∧
    (stepMsg net st (GameMsg.submit_drawing sender url)).phase = st.phase ∧
    (stepMsg net st (GameMsg.submit_drawing sender url)).roomCode = st.roomCode ∧
    (stepMsg net st (GameMsg.submit_drawing sender url)).currentQuestionIndex
      = st.currentQuestionIndex ∧
    (stepMsg net st (GameMsg.submit_drawing sender url)).quizAnswers = st.quizAnswers ∧
    (stepMsg net st (GameMsg.submit_drawing sender url)).quizTimeRemaining
      = st.quizTimeRemaining ∧
    (stepMsg net st (GameMsg.submit_drawing sender url)).drawingTimeRemaining
      = st.drawingTimeRemaining ∧
    (stepMsg net st (GameMsg.submit_drawing sender url)).currentSlideIndex
      = st.currentSlideIndex ∧
    (stepMsg net st (GameMsg.submit_drawing sender url)).slideTimeRemaining
      = st.slideTimeRemaining ∧
    (stepMsg net st (GameMsg.submit_drawing sender url)).reactions = st.reactions := by
  exact ⟨rfl, rfl, rfl, rfl, rfl, rfl, rfl, rfl, rfl, rfl⟩

/-! Derangement assigner lemmas. -/

theorem cons_set_perm {α : Type} (xs : List α) : ∀ (m : Nat) (h : m < xs.length) (x : α),
    List.Perm (xs.get ⟨m, h⟩ :: xs.set m x) (x :: xs) := by
  induction xs with
  | nil =>
    intro m h x
    simp at h
  | cons y ys ih =>
    intro m h x
    cases m with
    | zero => exact List.Perm.swap x y ys
    | succ k =>
      have hk : k < ys.length := Nat.lt_of_succ_lt_succ h
      have h1 : List.Perm (ys.get ⟨k, hk⟩ :: y :: ys.set k x)
          (y :: ys.get ⟨k, hk⟩ :: ys.set k x) := List.Perm.swap _ _ _
      have h2 : List.Perm (y :: ys.get ⟨k, hk⟩ :: ys.set k x) (y :: (x :: ys)) :=
        (ih k hk x).cons y
      have h3 : List.Perm (y :: x :: ys) (x :: y :: ys) := List.Perm.swap x y ys
      exact (h1.trans h2).trans h3

theorem set_set_perm {α : Type} (l : List α) : ∀ (i j : Nat) (a b : α),
    l.get? i = some a → l.get? j = some b → List.Perm ((l.set i b).set j a) l := by
  induction l with
  | nil =>
    intro i j a b hi _
    simp at hi
  | cons x xs ih =>
    intro i j a b hi hj
    cases i with
    | zero =>
      obtain rfl : x = a := by simpa using hi
      cases j with
      | zero =>
        obtain rfl : x = b := by simpa using hj
        exact List.Perm.refl _
      | succ m =>
        have hm : xs.get? m = some b := by simpa using hj
        obtain ⟨hmlt, hget⟩ := List.get?_eq_some.mp hm
        have hcp := cons_set_perm xs m hmlt x
        rw [hget] at hcp
        exact hcp
    | succ k =>
      have hk : xs.get? k = some a := by simpa using hi
      cases j with
      | zero =>
        obtain rfl : x = b := by simpa using hj
        obtain ⟨hklt, hget⟩ := List.get?_eq_some.mp hk
        have hcp := cons_set_perm xs k hklt x
        rw [hget] at hcp
        exact hcp
      | succ m =>
        have hm : xs.get? m = some b := by simpa using hj
        exact (ih k m a b hk hm).cons x

theorem lswap_perm {α : Type} (l : List α) (i j : Nat) : List.Perm (lswap l i j) l := by
  rcases hi : l.get? i with _ | a
  · rcases hj : l.get? j with _ | b
    · simp only [lswap, hi, hj]
      exact List.Perm.refl l
    · simp only [lswap, hi, hj]
      exact List.Perm.refl l
  · rcases hj : l.get? j with _ | b
    · simp only [lswap, hi, hj]
      exact List.Perm.refl l
    · simp only [lswap, hi, hj]
      exact set_set_perm l i j a b hi hj

theorem fyFrom_perm (g : Nat → Nat) : ∀ (i : Nat) (l : List SentenceItem) (c : Nat),
    List.Perm (fyFrom g i l c).1 l := by
  intro i
  induction i with
  | zero =>
    intro l c
    exact List.Perm.refl l
  | succ i ih =>
    intro l c
    exact (ih _ _).trans (lswap_perm l (i + 1) (g c % (i + 2)))

theorem derangeAttempts_perm (g : Nat → Nat) (items : List SentenceItem) :
    ∀ (fuel : Nat) (res : List SentenceItem) (c : Nat),
      List.Perm (derangeAttempts g items fuel res c).1 res := by
  intro fuel
  induction fuel with
  | zero =>
    intro res c
    exact List.Perm.refl res
  | succ fuel ih =>
    intro res c
    by_cases hchk : checkDerangement (fisherYates g res c).1 items
    · have he : derangeAttempts g items (fuel + 1) res c = ((fisherYates g res c).1, true) := by
        simp [derangeAttempts, hchk]
      rw [he]
      exact fyFrom_perm g _ res c
    · have he : derangeAttempts g items (fuel + 1) res c
          = derangeAttempts g items fuel (fisherYates g res c).1 (fisherYates g res c).2 := by
        simp [derangeAttempts, hchk]
      rw [he]
      exact (ih _ _).trans (fyFrom_perm g _ res c)

theorem derangeAttempts_check (g : Nat → Nat) (items : List SentenceItem) :
    ∀ (fuel : Nat) (res : List SentenceItem) (c : Nat),
      (derangeAttempts g items fuel res c).2 = true →
      checkDerangement (derangeAttempts g items fuel res c).1 items = true := by
  intro fuel
  induction fuel with
  | zero =>
    intro res c h
    simp [derangeAttempts] at h
  | succ fuel ih =>
    intro res c h
    by_cases hchk : checkDerangement (fisherYates g res c).1 items
    · have he : derangeAttempts g items (fuel + 1) res c = ((fisherYates g res c).1, true) := by
        simp [derangeAttempts, hchk]
      rw [he]
      exact hchk
    · have he : derangeAttempts g items (fuel + 1) res c
          = derangeAttempts g items fuel (fisherYates g res c).1 (fisherYates g res c).2 := by
        simp [derangeAttempts, hchk]
      rw [he] at h ⊢
      exact ih _ _ h

theorem rotate1_eq_rotate (l : List SentenceItem) : rotate1 l = l.rotate 1 := by
  cases l with
  | nil => rw [List.rotate_nil]; rfl
  | cons x xs =>
    show xs ++ [x] = (x :: xs).rotate 1
    rw [List.rotate_cons_succ, List.rotate_zero]

theorem rotate1_perm (l : List SentenceItem) : List.Perm (rotate1 l) l := by
  rw [rotate1_eq_rotate]
  exact List.rotate_perm l 1

theorem rotate1_length (l : List SentenceItem) : (rotate1 l).length = l.length := by
  exact (rotate1_perm l).length_eq

theorem checkDerangement_sound : ∀ (r o : List SentenceItem),
    checkDerangement r o = true →
    ∀ (i : Nat) (a b : SentenceItem), r.get? i = some a → o.get? i = some b →
      a.authorId ≠ b.authorId := by
  intro r
  induction r with
  | nil =>
    intro o h i a b ha hb
    simp at ha
  | cons x rs ih =>
    intro o h i a b ha hb
    cases o with
    | nil => simp at hb
    | cons y os =>
      have h' : ((x.authorId != y.authorId) && checkDerangement rs os) = true := h
      rw [Bool.and_eq_true] at h'
      cases i with
      | zero =>
        obtain rfl : x = a := by simpa using ha
        obtain rfl : y = b := by simpa using hb
        simpa using h'.1
      | succ k =>
        have ha' : rs.get? k = some a := by simpa using ha
        have hb' : os.get? k = some b := by simpa using hb
        exact ih os h'.2 k a b ha' hb'

theorem nodup_map_get?_ne {α β : Type} (l : List α) (f : α → β) (hnd : (l.map f).Nodup)
    (i j : Nat) (a b : α) (hne : i ≠ j) (ha : l.get? i = some a) (hb : l.get? j = some b) :
    f a ≠ f b := by
  intro hfeq
  have hMa : (l.map f).get? i = some (f a) := by
    rw [List.get?_map, ha]
    rfl
  have hMb : (l.map f).get? j = some (f b) := by
    rw [List.get?_map, hb]
    rfl
  obtain ⟨hi, hgi⟩ := List.get?_eq_some.mp hMa
  obtain ⟨hj, hgj⟩ := List.get?_eq_some.mp hMb
  have hgij : (l.map f).get ⟨i, hi⟩ = (l.map f).get ⟨j, hj⟩ := by
    rw [hgi, hgj, hfeq]
  have hfin := (List.nodup_iff_injective_get.mp hnd) hgij
  exact hne (by simpa using congrArg Fin.val hfin)

theorem rotate1_get? (l : List SentenceItem) (i : Nat) (h : i < l.length) :
    (rotate1 l).get? i = l.get? ((i + 1) % l.length) := by
  rw [rotate1_eq_rotate]
  exact List.get?_rotate h

theorem rotate1_noFix (l : List SentenceItem) (hnd : (l.map SentenceItem.authorId).Nodup)
    (h2 : 2 ≤ l.length) (i : Nat) (a b : SentenceItem)
    (ha : (rotate1 l).get? i = some a) (hb : l.get? i = some b) :
    a.authorId ≠ b.authorId := by
  have hi : i < l.length := by
    have h1 := (List.get?_eq_some.mp ha).1
    rwa [rotate1_length] at h1
  have ha' : l.get? ((i + 1) % l.length) = some a := by
    rw [← rotate1_get? l i hi]
    exact ha
  have hne : (i + 1) % l.length ≠ i := by
    rcases Nat.lt_or_ge (i + 1) l.length with hlt | hge
    · rw [Nat.mod_eq_of_lt hlt]
      omega
    · have hsum : i + 1 = l.length := by omega
      rw [hsum, Nat.mod_self]
      omega
  exact nodup_map_get?_ne l SentenceItem.authorId hnd _ i a b hne ha' hb

theorem createDerangement_eq (g : Nat → Nat) (items : List SentenceItem) :
    createDerangement g items =
      if items.length < 2 then items
      else if (derangeAttempts g items 100 items 0).2
        then (derangeAttempts g items 100 items 0).1
        else rotate1 items := rfl

theorem createDerangement_perm (g : Nat → Nat) (items : List SentenceItem) :
    List.Perm (createDerangement g items) items := by
  rw [createDerangement_eq]
  by_cases hlen : items.length < 2
  · rw [if_pos hlen]
  · rw [if_neg hlen]
    by_cases hok : (derangeAttempts g items 100 items 0).2
    · rw [if_pos hok]
      exact derangeAttempts_perm g items 100 items 0
    · rw [if_neg hok]
      exact rotate1_perm items

theorem createDerangement_noFix (g : Nat → Nat) (items : List SentenceItem)
    (hnd : (items.map SentenceItem.authorId).Nodup) (h2 : 2 ≤ items.length) :
    ∀ (i : Nat) (a b : SentenceItem),
      (createDerangement g items).get? i = some a → items.get? i = some b →
      a.authorId ≠ b.authorId := by
  intro i a b ha hb
  rw [createDerangement_eq] at ha
  have hlen : ¬items.length < 2 := Nat.not_lt.mpr h2
  rw [if_neg hlen] at ha
  by_cases hok : (derangeAttempts g items 100 items 0).2
  · rw [if_pos hok] at ha
    have hchk := derangeAttempts_check g items 100 items 0 hok
    exact checkDerangement_sound _ _ hchk i a b ha hb
  · rw [if_neg hok] at ha
    exact rotate1_noFix items hnd h2 i a b ha hb

/-- Claim C3: for every random oracle, the assigner returns the input
unchanged for fewer than 2 items, and for at least 2 items with pairwise
distinct author ids it returns a permutation of the input in which no
slot keeps its original author. -/
theorem c3_derangement_no_fixed_point (g : Nat → Nat) (items : List SentenceItem) :
    (items.length ≤ 1 → createDerangement g items = items) ∧
    ((items.map SentenceItem.authorId).Nodup → 2 ≤ items.length →
      List.Perm (createDerangement g items) items ∧
      ∀ (i : Nat) (a b : SentenceItem),
        (createDerangement g items).get? i = some a → items.get? i = some b →
        a.authorId ≠ b.authorId) := by
  constructor
  · intro h1
    rw [createDerangement_eq, if_pos (by omega)]
  · intro hnd h2
    exact ⟨createDerangement_perm g items, createDerangement_noFix g items hnd h2⟩

def c3items : List SentenceItem :=
  [{ sentence := "sa", authorId := "A" }, { sentence := "sb", authorId := "B" }]

def c3one : List SentenceItem := [{ sentence := "sa", authorId := "A" }]

/-- Witness for C3: for the all-zero oracle on a 2-item pool the assigner
yields a permutation whose slot 0 is not authored by A, and a singleton
pool is returned unchanged. -/
theorem c3_derangement_no_fixed_point_witness :
    List.Perm (createDerangement (fun _ => 0) c3items) c3items ∧
    (∀ (a b : SentenceItem),
      (createDerangement (fun _ => 0) c3items).get? 0 = some a → c3items.get? 0 = some b →
      a.authorId ≠ b.authorId) ∧
    createDerangement (fun _ => 0) c3one = c3one := by
  have h := c3_derangement_no_fixed_point (fun _ => 0) c3items
  have h2 := h.2 (by decide) (by decide)
  refine ⟨h2.1, fun a b ha hb => h2.2 0 a b ha hb, ?_⟩
  exact (c3_derangement_no_fixed_point (fun _ => 0) c3one).1 (by decide)

/-! Assignment loop lemmas. -/

theorem assignLoop_some (deranged : List SentenceItem) (hne : deranged ≠ []) :
    ∀ (ps : List Player) (idx : Nat) (acc : List (String × String)),
      ∃ asg, assignLoop deranged ps idx acc = some asg := by
  intro ps
  induction ps with
  | nil =>
    intro idx acc
    exact ⟨acc, rfl⟩
  | cons p0 ps' ih =>
    intro idx acc
    have hpos : 0 < deranged.length := List.length_pos.mpr hne
    have hlt : idx % deranged.length < deranged.length := Nat.mod_lt _ hpos
    obtain ⟨asg, hasg⟩ :=
      ih (idx + 1) (aset acc p0.id ((deranged.get ⟨idx % deranged.length, hlt⟩).sentence))
    refine ⟨asg, ?_⟩
    simp only [assignLoop]
    rw [List.get?_eq_get hlt]
    exact hasg

theorem assignLoop_preserves (deranged : List SentenceItem) :
    ∀ (ps : List Player) (idx : Nat) (acc asg : List (String × String)),
      assignLoop deranged ps idx acc = some asg →
      ∀ key, key ∉ ps.map Player.id → alookup asg key = alookup acc key := by
  intro ps
  induction ps with
  | nil =>
    intro idx acc asg h key _
    have h' : acc = asg := by simpa [assignLoop] using h
    rw [← h']
  | cons p0 ps' ih =>
    intro idx acc asg h key hkey
    simp only [assignLoop] at h
    cases hget : deranged.get? (idx % deranged.length) with
    | none =>
      rw [hget] at h
      simp at h
    | some it =>
      rw [hget] at h
      have hk1 : key ≠ p0.id := by
        intro he
        exact hkey (by simp [he])
      have hk2 : key ∉ ps'.map Player.id := fun hm => hkey (List.mem_cons_of_mem _ hm)
      rw [ih (idx + 1) _ asg h key hk2]
      exact alookup_aset_ne acc p0.id key it.sentence hk1

theorem assignLoop_alookup (deranged : List SentenceItem) :
    ∀ (ps : List Player) (idx : Nat) (acc asg : List (String × String)),
      assignLoop deranged ps idx acc = some asg →
      (ps.map Player.id).Nodup →
      ∀ (k : Nat) (p : Player), ps.get? k = some p →
        alookup asg p.id
          = (deranged.get? ((idx + k) % deranged.length)).map SentenceItem.sentence := by
  intro ps
  induction ps with
  | nil =>
    intro idx acc asg h hnd k p hk
    simp at hk
  | cons p0 ps' ih =>
    intro idx acc asg h hnd k p hk
    simp only [assignLoop] at h
    cases hget : deranged.get? (idx % deranged.length) with
    | none =>
      rw [hget] at h
      simp at h
    | some it =>
      rw [hget] at h
      have hnd' : (ps'.map Player.id).Nodup := (List.nodup_cons.mp (by simpa using hnd)).2
      have hnotin : p0.id ∉ ps'.map Player.id := (List.nodup_cons.mp (by simpa using hnd)).1
      cases k with
      | zero =>
        obtain rfl : p0 = p := by simpa using hk
        rw [assignLoop_preserves deranged ps' (idx + 1) _ asg h p0.id hnotin]
        rw [alookup_aset_self, Nat.add_zero, hget]
        rfl
      | succ k' =>
        have hk' : ps'.get? k' = some p := by simpa using hk
        have hres := ih (idx + 1) _ asg h hnd' k' p hk'
        have harith : idx + (k' + 1) = idx + 1 + k' := by omega
        rw [harith]
        exact hres

/-- Claim C4 amended: when every non-host participant authored a truthy
sentence, participant ids are pairwise distinct, authored texts are
pairwise distinct, and at least 2 participants exist, startDrawingPhase
succeeds and no non-host player is assigned their own sentence. -/
theorem c4_assignment_not_own (g : Nat → Nat) (st : GameState)
    (hid : ((st.players.filter (fun p => !p.isHost)).map Player.id).Nodup)
    (hall : ∀ p ∈ st.players, p.isHost = false → sentenceTruthy p = true)
    (htext : ((st.players.filter (fun p => !p.isHost)).map
        (fun p => p.sentence.getD "")).Nodup)
    (h2 : 2 ≤ (st.players.filter (fun p => !p.isHost)).length) :
    ∃ st', startDrawingPhase g st = some st' ∧
      ∀ p ∈ st'.players, p.isHost = false → p.assignedSentence ≠ p.sentence := by
  have hPfilter : (st.players.filter (fun p => !p.isHost)).filter sentenceTruthy
      = st.players.filter (fun p => !p.isHost) := by
    apply List.filter_eq_self.mpr
    intro p hp
    refine hall p (List.mem_of_mem_filter hp) ?_
    have := (List.mem_filter.mp hp).2
    simpa using this
  have hlenP : ((st.players.filter (fun p => !p.isHost)).map
        (fun p => ({ sentence := p.sentence.getD "", authorId := p.id } : SentenceItem))).length
      = (st.players.filter (fun p => !p.isHost)).length := List.length_map _ _
  have hperm := createDerangement_perm g
    ((st.players.filter (fun p => !p.isHost)).map
      (fun p => ({ sentence := p.sentence.getD "", authorId := p.id } : SentenceItem)))
  have hlend : (createDerangement g
        ((st.players.filter (fun p => !p.isHost)).map
          (fun p => ({ sentence := p.sentence.getD "", authorId := p.id } : SentenceItem)))).length
      = (st.players.filter (fun p => !p.isHost)).length := by
    rw [hperm.length_eq, hlenP]
  have hdne : createDerangement g
      ((st.players.filter (fun p => !p.isHost)).map
        (fun p => ({ sentence := p.sentence.getD "", authorId := p.id } : SentenceItem))) ≠ [] := by
    intro hnil
    rw [hnil] at hlend
    simp at hlend
    omega
  obtain ⟨asg, hasg⟩ := assignLoop_some _ hdne (st.players.filter (fun p => !p.isHost)) 0 []
  have heq : startDrawingPhase g st
      = match assignLoop (createDerangement g
          ((st.players.filter (fun p => !p.isHost)).map
            (fun p => ({ sentence := p.sentence.getD "", authorId := p.id } : SentenceItem))))
          (st.players.filter (fun p => !p.isHost)) 0 [] with
        | none => none
        | some assignments =>
          some { st with
            phase := GamePhase.drawing,
            drawingTimeRemaining := DRAWING_DURATION,
            players := st.players.map (fun p =>
              { p with assignedSentence :=
                  if p.isHost then none else alookup assignments p.id }) } := by
    simp only [startDrawingPhase]
    rw [hPfilter]
  rw [heq, hasg]
  refine ⟨_, rfl, ?_⟩
  intro p hp hhost
  have hp' : p ∈ st.players.map (fun q =>
      { q with assignedSentence := if q.isHost then none else alookup asg q.id }) := hp
  obtain ⟨q, hq, hfq⟩ := List.mem_map.mp hp'
  have hqhost : q.isHost = false := by
    rw [← hfq] at hhost
    simpa using hhost
  have hqP : q ∈ st.players.filter (fun p => !p.isHost) :=
    List.mem_filter.mpr ⟨hq, by simp [hqhost]⟩
  obtain ⟨k, hk⟩ := List.mem_iff_get?.mp hqP
  have hkP : k < (st.players.filter (fun p => !p.isHost)).length := (List.get?_eq_some.mp hk).1
  have hkd : k < (createDerangement g
      ((st.players.filter (fun p => !p.isHost)).map
        (fun p => ({ sentence := p.sentence.getD "", authorId := p.id } : SentenceItem)))).length := by
    rw [hlend]
    exact hkP
  have hlook := assignLoop_alookup _ (st.players.filter (fun p => !p.isHost)) 0 [] asg hasg hid k q hk
  rw [Nat.zero_add, Nat.mod_eq_of_lt hkd, List.get?_eq_get hkd] at hlook
  have hsk : ((st.players.filter (fun p => !p.isHost)).map
        (fun p => ({ sentence := p.sentence.getD "", authorId := p.id } : SentenceItem))).get? k
      = some { sentence := q.sentence.getD "", authorId := q.id } := by
    rw [List.get?_map, hk]
    rfl
  have hndA : (((st.players.filter (fun p => !p.isHost)).map
        (fun p => ({ sentence := p.sentence.getD "", authorId := p.id } : SentenceItem))).map
          SentenceItem.authorId).Nodup := by
    rw [List.map_map]
    exact hid
  have h2A : 2 ≤ ((st.players.filter (fun p => !p.isHost)).map
      (fun p => ({ sentence := p.sentence.getD "", authorId := p.id } : SentenceItem))).length := by
    rw [hlenP]
    exact h2
  have hauth := createDerangement_noFix g _ hndA h2A k _ _ (List.get?_eq_get hkd) hsk
  have hdkmem := hperm.mem_iff.mp (List.get?_mem (List.get?_eq_get hkd))
  obtain ⟨q1, hq1P, hmk1⟩ := List.mem_map.mp hdkmem
  obtain ⟨k1, hk1⟩ := List.mem_iff_get?.mp hq1P
  have hkk1 : k1 ≠ k := by
    intro he
    subst he
    rw [hk1] at hk
    obtain rfl : q1 = q := by simpa using hk
    exact hauth (by rw [← hmk1])
  have htextne := nodup_map_get?_ne (st.players.filter (fun p => !p.isHost))
    (fun p => p.sentence.getD "") htext k1 k q1 q hkk1 hk1 hk
  have hqtr : sentenceTruthy q = true := hall q hq hqhost
  have hqs : q.sentence = some (q.sentence.getD "") := by
    cases hqq : q.sentence with
    | none =>
      exfalso
      have h1 : sentenceTruthy q = true := hqtr
      simp [sentenceTruthy, hqq] at h1
    | some s => rfl
  rw [← hfq]
  show (if q.isHost = true then none else alookup asg q.id) ≠ q.sentence
  have hifq : (if q.isHost = true then none else alookup asg q.id) = alookup asg q.id := by
    rw [hqhost]
    simp
  rw [hifq, hlook, hqs]
  intro hcon
  have hsent := Option.some.inj hcon
  have hd : ((createDerangement g
      ((st.players.filter (fun p => !p.isHost)).map
        (fun p => ({ sentence := p.sentence.getD "", authorId := p.id } : SentenceItem)))).get
        ⟨k, hkd⟩).sentence = q1.sentence.getD "" := by
    rw [← hmk1]
  apply htextne
  show q1.sentence.getD "" = q.sentence.getD ""
  rw [← hd]
  exact hsent

def c4host : Player := { id := "H", name := "Host", isHost := true }

def c4ann : Player := { id := "A", name := "Ann", isHost := false, sentence := some "sa" }

def c4ben : Player := { id := "B", name := "Ben", isHost := false }

def c4cam : Player := { id := "C", name := "Cam", isHost := false, sentence := some "sc" }

def c4state : GameState :=
  { createInitialGameState "MN34" with
    phase := GamePhase.quiz, players := [c4host, c4ann, c4ben, c4cam] }

/-- Claim C4 counterexample: with two authored sentences present but one
sentence-less participant between the authors, the assignment index
misaligns with the deranged pool and Cam receives their own sentence. -/
theorem c4_assignment_not_own_counterexample :
    ((c4state.players.filter (fun p => !p.isHost)).filter sentenceTruthy).length = 2 ∧
    ((startDrawingPhase (fun _ => 0) c4state).bind
        (fun s => s.players.find? (fun p => p.id == "C"))).map
          (fun p => (p.sentence, p.assignedSentence))
      = some (some "sc", some "sc") := by
  decide

def c4state2 : GameState :=
  { createInitialGameState "MN35" with
    phase := GamePhase.quiz, players := [c4host, c4ann, c4cam] }

/-- Witness for the amended C4: with every participant an author of a
distinct sentence, the drawing phase starts and nobody draws their own
sentence. -/
theorem c4_assignment_not_own_witness :
    ∃ st', startDrawingPhase (fun _ => 0) c4state2 = some st' ∧
      ∀ p ∈ st'.players, p.isHost = false → p.assignedSentence ≠ p.sentence :=
  c4_assignment_not_own (fun _ => 0) c4state2 (by decide) (by decide) (by decide) (by decide)

def c8host : Player := { id := "host", name := "Hank", isHost := true }

def c8part : Player := { id := "p1", name := "Pat", isHost := false }

def c8state : GameState :=
  { createInitialGameState "JK23" with
    phase := GamePhase.quiz, players := [c8host, c8part] }

/-- Claim C8: with one sentence-less participant present, the deranged
pool is empty and the assignment slot access fails (the JavaScript code
reads .sentence of undefined and throws), modelled as a none result;
with no participants at all the same transition completes normally. -/
theorem c8_startDrawingPhase_crash :
    startDrawingPhase (fun _ => 0) c8state = none ∧
    (startDrawingPhase (fun _ => 0)
      { c8state with players := [c8host] }).isSome = true := by
  decide
